import Mathlib

/-!
Verification of the securepenguin fleet-inventory scanner.

This file shallowly embeds the core of the scanner (src/scanner.rs,
src/ssh_client.rs, src/web_scanner.rs, src/models.rs) in Lean 4.

Modelling conventions:
* Remote commands and HTTP requests are external effects; each probe's raw
  command output (or failure) is an input to the embedded functions
  (`HostOutcome`, and the per-endpoint outcome function for the web scanner).
* Rust `u16`/`usize` are modelled as `Nat` (the sole subtraction is proved
  not to underflow); `f64` response times are abstracted to an opaque `Nat`
  measurement because only their presence (`Option`) matters to the spec.
* All string manipulation is re-implemented structurally on `List Char`
  so that every definition evaluates by kernel reduction (`decide`/`rfl`).
* The Rust `HashMap` used for port-conflict grouping is modelled as an
  association list in first-insertion order; `HashMap` iteration order is
  unspecified in Rust, but the multiset of produced issues, and the content
  of each issue, are order-independent.
-/

/-! ## Character-level string utilities (Rust `str` operations) -/

/-- `charsLead pat l` is true when `pat` is a leading segment of `l`
(Rust `str::starts_with`). -/
def charsLead : List Char → List Char → Bool
  | [], _ => true
  | _ :: _, [] => false
  | a :: as, b :: bs => a == b && charsLead as bs

/-- Rust `str::contains` with a string pattern: plain substring containment,
no regular-expression interpretation. -/
def mentions (needle hay : String) : Bool :=
  (List.range (hay.data.length + 1)).any (fun i => charsLead needle.data (hay.data.drop i))

/-- ASCII whitespace, covering every character the scanner's inputs use. -/
def isWsChar (c : Char) : Bool := c == ' ' || c == '\t' || c == '\n' || c == '\r'

/-- Rust `str::trim` on the character list. -/
def trimCh (l : List Char) : List Char :=
  ((l.dropWhile isWsChar).reverse.dropWhile isWsChar).reverse

/-- Rust `str::trim`. -/
def rustTrim (s : String) : String := String.mk (trimCh s.data)

/-- Split on a separator character, keeping empty chunks (Rust `str::split`). -/
def splitChar (sep : Char) : List Char → List (List Char)
  | [] => [[]]
  | c :: cs =>
    if c == sep then [] :: splitChar sep cs
    else
      match splitChar sep cs with
      | [] => [[c]]
      | l :: ls => (c :: l) :: ls

/-- Split on newline characters (all chunks, including a trailing empty one). -/
def splitNl : List Char → List (List Char)
  | [] => [[]]
  | c :: cs =>
    if c == '\n' then [] :: splitNl cs
    else
      match splitNl cs with
      | [] => [[c]]
      | l :: ls => (c :: l) :: ls

/-- Drop the final chunk when it is empty (Rust `lines` yields no line after a
trailing newline). -/
def dropLastEmpty : List (List Char) → List (List Char)
  | [] => []
  | [l] => if l.isEmpty then [] else [l]
  | l :: ls => l :: dropLastEmpty ls

/-- Strip one trailing carriage return (Rust `lines` strips `\r\n`). -/
def stripCr (l : List Char) : List Char :=
  match l.reverse with
  | '\r' :: rest => rest.reverse
  | _ => l

/-- Rust `str::lines`. -/
def rustLines (s : String) : List String :=
  (dropLastEmpty (splitNl s.data)).map (fun l => String.mk (stripCr l))

/-- Rust `str::split_whitespace`: maximal runs of non-whitespace. -/
def splitWsAux : List Char → List Char → List (List Char)
  | [], acc => if acc.isEmpty then [] else [acc.reverse]
  | c :: cs, acc =>
    if isWsChar c then
      if acc.isEmpty then splitWsAux cs [] else acc.reverse :: splitWsAux cs []
    else splitWsAux cs (c :: acc)

/-- Rust `str::split_whitespace` on a character list. -/
def splitWs (l : List Char) : List (List Char) := splitWsAux l []

/-- Rust `str::splitn(n, sep)` helper: at most `n` chunks, the last chunk keeps
the remaining separators. -/
def splitnAux : Nat → Char → List Char → List Char → List (List Char)
  | _, _, [], acc => [acc.reverse]
  | 0, _, rest, acc => [acc.reverse ++ rest]
  | 1, _, rest, acc => [acc.reverse ++ rest]
  | n + 2, sep, c :: cs, acc =>
    if c == sep then acc.reverse :: splitnAux (n + 1) sep cs []
    else splitnAux (n + 2) sep cs (c :: acc)

/-- Rust `str::splitn(n, sep)` with a character separator. -/
def splitnChar (n : Nat) (sep : Char) (l : List Char) : List (List Char) :=
  splitnAux n sep l []

/-- First occurrence of `sep` in a character list: returns the text before it
and the text after it, or `none` when `sep` does not occur. -/
def splitFirstOcc (sep : List Char) : List Char → Option (List Char × List Char)
  | [] => if sep.isEmpty then some ([], []) else none
  | c :: cs =>
    if charsLead sep (c :: cs) then some ([], (c :: cs).drop sep.length)
    else
      match splitFirstOcc sep cs with
      | some (pre, post) => some (c :: pre, post)
      | none => none

/-- Decimal digit value. -/
def digitVal (c : Char) : Option Nat :=
  if c.isDigit then some (c.toNat - '0'.toNat) else none

/-- Parse an all-digit character list to a natural number (`none` on empty
input or any non-digit, matching Rust's integer `FromStr`). -/
def parseNatChars (l : List Char) : Option Nat :=
  if l.isEmpty then none
  else
    l.foldl (fun acc c =>
      match acc, digitVal c with
      | some n, some d => some (n * 10 + d)
      | _, _ => none) (some 0)

/-- Rust `str::parse::<u16>()`: digits only, rejecting values above 65535. -/
def parseU16 (l : List Char) : Option Nat :=
  match parseNatChars l with
  | some n => if n ≤ 65535 then some n else none
  | none => none

/-- Lowercase a character list (the scanner's allow-list patterns are ASCII,
for which `Char.toLower` agrees with Rust `str::to_lowercase`). -/
def lowerChars (l : List Char) : List Char := l.map Char.toLower

/-- Lowercase a string. -/
def lowerStr (s : String) : String := String.mk (lowerChars s.data)

/-- Concatenation of a list of lists. -/
def catLists {β : Type} : List (List β) → List β
  | [] => []
  | l :: ls => l ++ catLists ls

/-! ## Data model (src/models.rs) -/

structure VmHost where
  name : String
  ip : String
  port : Nat
  user : String
  identity_file : String
  vpn_ip : Option String
deriving DecidableEq

inductive ServiceStatus where
  | Running
  | Stopped
  | Failed
  | NotFound
deriving DecidableEq

structure Service where
  name : String
  status : ServiceStatus
  ports : List Nat
deriving DecidableEq

structure Container where
  name : String
  status : String
  ports : String
deriving DecidableEq

structure WireGuardPeer where
  public_key : String
  endpoint : Option String
  allowed_ips : String
  latest_handshake : Option String
  transfer : Option String
deriving DecidableEq

structure WireGuardStatus where
  interface : String
  public_key : String
  listening_port : Nat
  peers : List WireGuardPeer
  error : Option String
deriving DecidableEq

structure Port where
  port : Nat
  protocol : String
  process : String
deriving DecidableEq

structure LogEntry where
  timestamp : String
  service : String
  level : String
  message : String
deriving DecidableEq

structure WebService where
  name : String
  url : String
  http_status : Option Nat
  response_time : Option Nat
  error : Option String
deriving DecidableEq

structure VmStatus where
  host : VmHost
  reachable : Bool
  services : List Service
  containers : List Container
  wireguard : Option WireGuardStatus
  open_ports : List Port
  recent_errors : List LogEntry
deriving DecidableEq

structure Summary where
  total_vms : Nat
  reachable_vms : Nat
  total_services : Nat
  running_services : Nat
  failed_services : Nat
  total_containers : Nat
  running_containers : Nat
deriving DecidableEq

structure InventoryReport where
  timestamp : Nat
  vms : List VmStatus
  web_services : List WebService
  summary : Summary
  critical_issues : List String
  warnings : List String
deriving DecidableEq

/-! ## Host inventory parsers (src/ssh_client.rs)

Each parser takes the captured standard output of its remote command.
Command failures are handled at the `scanHost` level (see below), mirroring
the `?` propagation plus `unwrap_or_default`/`unwrap_or(None)` in `scan`.
-/

/-- The fixed allow-list of service-name fragments in
`SshClient::list_running_services`. -/
def service_patterns : List String :=
  ["docker", "podman", "wireguard", "samba", "guacamole",
   "nginx", "traefik", "apache", "mysql", "postgres", "redis",
   "pdns", "powerdns", "n8n", "obsidian", "couchdb", "authelia"]

/-- `SshClient::list_running_services`: every trimmed non-empty line produces
one `Service` per allow-list fragment contained (case-insensitively) in it,
with status `Running` and no ports. -/
def list_running_services (output : String) : List Service :=
  (rustLines output).foldl (fun services rawLine =>
    let line := rustTrim rawLine
    if line.data.isEmpty then services
    else
      service_patterns.foldl (fun svcs pat =>
        if mentions pat (lowerStr line) then
          svcs ++ [Service.mk line ServiceStatus.Running []]
        else svcs) services) []

/-- `SshClient::list_docker_containers`: on the sentinel `DOCKER_ERROR` or
blank output return no containers; otherwise skip the header line and take
lines with at least three whitespace-separated fields. -/
def list_docker_containers (output : String) : List Container :=
  if mentions "DOCKER_ERROR" output || (rustTrim output).data.isEmpty then []
  else
    ((rustLines output).drop 1).foldl (fun cs line =>
      match splitWs line.data with
      | n :: st :: ps :: _ => cs ++ [Container.mk (String.mk n) (String.mk st) (String.mk ps)]
      | _ => cs) []

/-- `SshClient::list_podman_containers`: identical to the docker variant with
the `PODMAN_ERROR` sentinel. -/
def list_podman_containers (output : String) : List Container :=
  if mentions "PODMAN_ERROR" output || (rustTrim output).data.isEmpty then []
  else
    ((rustLines output).drop 1).foldl (fun cs line =>
      match splitWs line.data with
      | n :: st :: ps :: _ => cs ++ [Container.mk (String.mk n) (String.mk st) (String.mk ps)]
      | _ => cs) []

/-- `line.split(':').nth(1).unwrap_or(dflt).trim().to_string()`. -/
def colonField (d : List Char) (dflt : String) : String :=
  match (splitChar ':' d).get? 1 with
  | some f => String.mk (trimCh f)
  | none => dflt

/-- Accumulator of the `wg show` parsing loop in
`SshClient::get_wireguard_status`, with the same initial values. -/
structure WgAcc where
  peers : List WireGuardPeer
  current : Option WireGuardPeer
  public_key : String
  listening_port : Nat
  interface : String
deriving DecidableEq

/-- One iteration of the `wg show` parsing loop. The four peer-field branches
compare a two-space-indented pattern against the already-trimmed line, exactly
as the source does; on a trimmed line they can never match. -/
def wgStep (acc : WgAcc) (rawLine : String) : WgAcc :=
  let line := rustTrim rawLine
  let d := line.data
  if charsLead "interface:".data d then
    { acc with
      interface := colonField d "wg0",
      peers := acc.peers ++ (match acc.current with | some p => [p] | none => []),
      current := none }
  else if charsLead "public key:".data d then
    { acc with public_key := colonField d "unknown" }
  else if charsLead "listening port:".data d then
    match (splitChar ':' d).get? 1 with
    | some ps => { acc with listening_port := (parseU16 (trimCh ps)).getD 0 }
    | none => acc
  else if charsLead "peer:".data d then
    { acc with
      peers := acc.peers ++ (match acc.current with | some p => [p] | none => []),
      current := some (WireGuardPeer.mk (colonField d "unknown") none "" none none) }
  else if charsLead "  endpoint:".data d then
    match acc.current with
    | some p => { acc with current := some { p with endpoint := some (colonField d "unknown") } }
    | none => acc
  else if charsLead "  allowed ips:".data d then
    match acc.current with
    | some p => { acc with current := some { p with allowed_ips := colonField d "unknown" } }
    | none => acc
  else if charsLead "  latest handshake:".data d then
    match acc.current with
    | some p => { acc with current := some { p with latest_handshake := some (colonField d "unknown") } }
    | none => acc
  else if charsLead "  transfer:".data d then
    match acc.current with
    | some p => { acc with current := some { p with transfer := some (colonField d "unknown") } }
    | none => acc
  else acc

/-- `SshClient::get_wireguard_status`: `None` on the `WG_ERROR` sentinel or
blank output, otherwise the folded parsing loop with a final flush of the
pending peer. -/
def get_wireguard_status (output : String) : Option WireGuardStatus :=
  if mentions "WG_ERROR" output || (rustTrim output).data.isEmpty then none
  else
    let acc := (rustLines output).foldl wgStep (WgAcc.mk [] none "" 0 "wg0")
    let peers := acc.peers ++ (match acc.current with | some p => [p] | none => [])
    some (WireGuardStatus.mk acc.interface acc.public_key acc.listening_port peers none)

/-- The owning-process extraction in `SshClient::get_open_ports`:
`line.split("users:(\"").nth(1).and_then(|s| s.split('"').next()).unwrap_or("unknown")`. -/
def extractProcess (l : List Char) : String :=
  match splitFirstOcc ("users:(\"".data) l with
  | none => "unknown"
  | some (_, rest) =>
    let chunk := match splitFirstOcc ("users:(\"".data) rest with
      | some (pre, _) => pre
      | none => rest
    String.mk (chunk.takeWhile (fun c => !(c == '"')))

/-- `SshClient::get_open_ports`: for each line, the token after the first
colon must begin with a parseable u16 port; the protocol is the first
whitespace-separated field and the process is best-effort. -/
def get_open_ports (output : String) : List Port :=
  (rustLines output).foldl (fun ports line =>
    match (splitChar ':' line.data).get? 1 with
    | none => ports
    | some portStr =>
      match (splitWs portStr).head? with
      | none => ports
      | some portPart =>
        match parseU16 portPart with
        | none => ports
        | some port =>
          let protocol := match (splitWs line.data).head? with
            | some w => String.mk w
            | none => "unknown"
          ports ++ [Port.mk port protocol (extractProcess line.data)]) []

/-- `SshClient::get_recent_errors`: `[]` on the `JOURNALCTL_ERROR` sentinel or
blank output; otherwise each line is split into at most 4 space-separated
fields and kept only when all 4 are present, the message being the third and
fourth fields rejoined. -/
def get_recent_errors (output : String) : List LogEntry :=
  if mentions "JOURNALCTL_ERROR" output || (rustTrim output).data.isEmpty then []
  else
    (rustLines output).foldl (fun errors line =>
      match splitnChar 4 ' ' line.data with
      | [t, s, m1, m2] =>
        errors ++ [LogEntry.mk (String.mk t) (String.mk s) "err" (String.mk m1 ++ " " ++ String.mk m2)]
      | _ => errors) []

/-! ## External endpoint prober (src/web_scanner.rs) -/

structure WebServiceConfig where
  name : String
  url : String
deriving DecidableEq

/-- Outcome of one HTTP HEAD request (the external effect of
`reqwest::Client::head(...).send()`): a status code or a network error. -/
inductive HttpOutcome where
  | ok (status : Nat)
  | err (msg : String)
deriving DecidableEq

/-- `Except.isOk`, spelled out (Rust `Result::is_ok`). -/
def exceptIsOk {ε α : Type} : Except ε α → Bool
  | Except.ok _ => true
  | Except.error _ => false

/-- `WebScanner::scan_service`: the elapsed time is measured before the
response is inspected, so it is recorded in both arms; both arms return `Ok`.
The `f64` elapsed seconds are abstracted to an opaque `Nat` measurement. -/
def scan_service (config : WebServiceConfig) (elapsed : Nat) (response : HttpOutcome) :
    Except String WebService :=
  match response with
  | HttpOutcome.ok status =>
    Except.ok (WebService.mk config.name config.url (some status) (some elapsed) none)
  | HttpOutcome.err e =>
    Except.ok (WebService.mk config.name config.url none (some elapsed) (some e))

/-- `WebScanner::scan_all`: probe every configured endpoint (concurrently in
the source; `futures::future::join_all` returns results in input order, which
is what the fold over the mapped list models) and keep the `Ok` results in
order. The per-endpoint elapsed time and response are inputs, standing for any
completion schedule. -/
def scan_all (cfgs : List WebServiceConfig) (elapsed : WebServiceConfig → Nat)
    (response : WebServiceConfig → HttpOutcome) : List WebService :=
  (cfgs.map (fun c => scan_service c (elapsed c) (response c))).foldl
    (fun acc r => match r with
      | Except.ok ws => acc ++ [ws]
      | Except.error _ => acc) []

/-! ## Fleet orchestrator (src/scanner.rs) -/

instance {ε α : Type} [DecidableEq ε] [DecidableEq α] : DecidableEq (Except ε α)
  | Except.ok x, Except.ok y =>
    if h : x = y then isTrue (by rw [h]) else isFalse (by intro hh; cases hh; exact h rfl)
  | Except.ok _, Except.error _ => isFalse (by intro hh; cases hh)
  | Except.error _, Except.ok _ => isFalse (by intro hh; cases hh)
  | Except.error x, Except.error y =>
    if h : x = y then isTrue (by rw [h]) else isFalse (by intro hh; cases hh; exact h rfl)

/-- The external effects of one host's probing pipeline: the connection
attempt (`SshClient::connect`), the `hostname` check backing `is_reachable`,
and the raw output (or command failure) of each remote command. -/
structure HostOutcome where
  connectError : Option String
  hostnameOut : Except String String
  servicesOut : Except String String
  dockerProbeOut : Except String String
  dockerListOut : Except String String
  podmanListOut : Except String String
  wgOut : Except String String
  portsOut : Except String String
  journalOut : Except String String
deriving DecidableEq

/-- `SshClient::is_reachable`: `self.hostname().is_ok()`. -/
def is_reachable (o : HostOutcome) : Bool := exceptIsOk o.hostnameOut

/-- `unwrap_or`-style default extraction from a command result. -/
def exceptD {α : Type} (e : Except String α) (d : α) : α :=
  match e with
  | Except.ok a => a
  | Except.error _ => d

/-- `SshClient::list_containers`: probe for docker, fall back to podman. -/
def list_containers (o : HostOutcome) : Except String (List Container) :=
  match o.dockerProbeOut with
  | Except.ok out =>
    if mentions "DOCKER_FOUND" out then Except.map list_docker_containers o.dockerListOut
    else Except.map list_podman_containers o.podmanListOut
  | Except.error _ => Except.map list_podman_containers o.podmanListOut

/-- Rust debug formatting of a `Vec<&str>`, as produced by `{:?}` in the
port-conflict message. -/
def quoteJoin : List String → String
  | [] => ""
  | [n] => "\"" ++ n ++ "\""
  | n :: rest => "\"" ++ n ++ "\", " ++ quoteJoin rest

/-- Rust `{:?}` on a `Vec<&str>`. -/
def rustDebugStrList (names : List String) : String := "[" ++ quoteJoin names ++ "]"

/-- The `(port, service name)` pairs inserted into the port-usage map: one per
declared port of each `Running` service, in service order. -/
def runningPortPairs (services : List Service) : List (Nat × String) :=
  services.foldl (fun acc s =>
    match s.status with
    | ServiceStatus.Running => acc ++ s.ports.map (fun p => (p, s.name))
    | _ => acc) []

/-- Insert one `(port, name)` pair into the association-list model of the
`HashMap<u16, Vec<&Service>>`: names accumulate per port in insertion order. -/
def insertUsage : List (Nat × List String) → Nat → String → List (Nat × List String)
  | [], p, n => [(p, [n])]
  | (q, ns) :: rest, p, n =>
    if q = p then (q, ns ++ [n]) :: rest
    else (q, ns) :: insertUsage rest p n

/-- The port-usage grouping of `InventoryScanner::check_critical_issues`,
keyed in first-insertion order (the Rust `HashMap` iterates in an unspecified
order; content per key is identical). -/
def portUsage (services : List Service) : List (Nat × List String) :=
  (runningPortPairs services).foldl (fun m pn => insertUsage m pn.1 pn.2) []

/-- The port-conflict issues: one per port claimed by more than one running
service. -/
def portConflictIssues (host : VmHost) (services : List Service) : List String :=
  (portUsage services).foldl (fun issues entry =>
    if entry.2.length > 1 then
      issues ++ [host.name ++ ": Port conflict on " ++ toString entry.1 ++
                 " - used by " ++ rustDebugStrList entry.2]
    else issues) []

/-- The bind-failure issues: one per recent error whose message contains one
of three literal substrings (`str::contains`, not a regex — `"port.*already"`
is matched literally). -/
def bindErrorIssues (host : VmHost) (errors : List LogEntry) : List String :=
  errors.foldl (fun issues e =>
    if mentions "NT_STATUS_ADDRESS_ALREADY_ASSOCIATED" e.message
        || mentions "Failed to bind" e.message
        || mentions "port.*already" e.message then
      issues ++ [host.name ++ ": Port binding error - " ++ e.message]
    else issues) []

/-- `InventoryScanner::check_critical_issues`: port conflicts first, then
bind-failure errors, appended to the shared issue list. -/
def check_critical_issues (host : VmHost) (services : List Service)
    (errors : List LogEntry) : List String :=
  portConflictIssues host services ++ bindErrorIssues host errors

/-- `matches!(s.status, ServiceStatus::Running)`. -/
def isRunningB (s : Service) : Bool :=
  match s.status with
  | ServiceStatus.Running => true
  | _ => false

/-- `InventoryScanner::generate_summary`. -/
def generate_summary (vms : List VmStatus) : Summary :=
  { total_vms := vms.length
  , reachable_vms := (vms.filter (fun v => v.reachable)).length
  , total_services := (vms.map (fun v => v.services.length)).sum
  , running_services := (vms.map (fun v => (v.services.filter isRunningB).length)).sum
  , failed_services := (vms.map (fun v => v.services.length)).sum
      - (vms.map (fun v => (v.services.filter isRunningB).length)).sum
  , total_containers := (vms.map (fun v => v.containers.length)).sum
  , running_containers :=
      (vms.map (fun v => (v.containers.filter (fun c => mentions "Up" c.status)).length)).sum
  }

/-- One iteration of the host loop in `InventoryScanner::scan`: the produced
`VmStatus`, the critical issues appended by this iteration, and the warnings
appended by this iteration. On a connection error the host is recorded
unreachable with empty sub-lists and the issue `"{host}: {error}"`; on a
successful connection every probe degrades to its default on failure and
issue derivation runs. -/
def scanHost (host : VmHost) (o : HostOutcome) : VmStatus × List String × List String :=
  match o.connectError with
  | some e =>
    (VmStatus.mk host false [] [] none [] [], [host.name ++ ": " ++ e], [])
  | none =>
    let reachable := is_reachable o
    let warns := if reachable then [] else [host.name ++ " is not reachable"]
    let services := exceptD (Except.map list_running_services o.servicesOut) []
    let containers := exceptD (list_containers o) []
    let wireguard := exceptD (Except.map get_wireguard_status o.wgOut) none
    let open_ports := exceptD (Except.map get_open_ports o.portsOut) []
    let recent_errors := exceptD (Except.map get_recent_errors o.journalOut) []
    (VmStatus.mk host reachable services containers wireguard open_ports recent_errors,
     check_critical_issues host services recent_errors,
     warns)

/-- The issues one host's loop iteration appends to the report. -/
def hostCritical (h : VmHost) (o : HostOutcome) : List String := (scanHost h o).2.1

/-- The fold step of the host loop: append the `VmStatus` and this host's
issue/warning contributions to the shared vectors. -/
def scanStep (acc : List VmStatus × List String × List String)
    (p : VmHost × HostOutcome) : List VmStatus × List String × List String :=
  let r := scanHost p.1 p.2
  (acc.1 ++ [r.1], acc.2.1 ++ r.2.1, acc.2.2 ++ r.2.2)

/-- The sequential host loop of `InventoryScanner::scan`. -/
def scanLoop (hosts : List (VmHost × HostOutcome)) :
    List VmStatus × List String × List String :=
  hosts.foldl scanStep ([], [], [])

/-- `InventoryScanner::scan`: probe the web endpoints, loop over the hosts,
then derive the summary from the assembled `VmStatus` list. `Utc::now()` is an
external effect, passed in as `ts`. -/
def scan (hosts : List (VmHost × HostOutcome)) (cfgs : List WebServiceConfig)
    (elapsed : WebServiceConfig → Nat) (response : WebServiceConfig → HttpOutcome)
    (ts : Nat) : InventoryReport :=
  let web_services := scan_all cfgs elapsed response
  let r := scanLoop hosts
  { timestamp := ts
  , vms := r.1
  , web_services := web_services
  , summary := generate_summary r.1
  , critical_issues := r.2.1
  , warnings := r.2.2 }

/-- A two-peer `wg show` capture with every peer field present, used to check
the tunnel-parser round-trip property. -/
def wgSampleOutput : String :=
  "interface: wg0\n  public key: IFACEKEY\n  listening port: 51820\n\npeer: PEERKEY1\n  endpoint: 192.168.1.10:51820\n  allowed ips: 10.8.0.2/32\n  latest handshake: 1 minute ago\n  transfer: 1.21 MiB received, 2.59 MiB sent\n\npeer: PEERKEY2\n  endpoint: 192.168.1.11:51820\n  allowed ips: 10.8.0.3/32\n  latest handshake: 2 minutes ago\n  transfer: 3.14 MiB received, 4.02 MiB sent\n"

/-- Spec-level per-line characterization of the service parser: a trimmed
non-empty line yields one `Running`, port-free record per allow-list fragment
it contains. Stated from the spec's words, to be compared with the
transcribed `list_running_services`. -/
def perLineServiceRecords (raw : String) : List Service :=
  if (rustTrim raw).data.isEmpty then []
  else
    catLists (service_patterns.map (fun pat =>
      if mentions pat (lowerStr (rustTrim raw)) then
        [Service.mk (rustTrim raw) ServiceStatus.Running []]
      else []))

/-! ## Helper lemmas -/

/-- A fold whose step appends a per-element contribution equals the
concatenation of the contributions. -/
theorem foldl_emits {α β : Type} (g : α → List β) (f : List β → α → List β)
    (l : List α) (init : List β) (hf : ∀ acc x, f acc x = acc ++ g x) :
    List.foldl f init l = init ++ catLists (l.map g) := by
  induction l generalizing init with
  | nil => simp [catLists]
  | cons x xs ih => simp [List.foldl_cons, hf, ih, catLists, List.append_assoc]

theorem catLists_append {β : Type} (a b : List (List β)) :
    catLists (a ++ b) = catLists a ++ catLists b := by
  induction a with
  | nil => simp [catLists]
  | cons l ls ih => simp [catLists, ih, List.append_assoc]

theorem all_catLists {β : Type} (p : β → Bool) (ls : List (List β)) :
    (catLists ls).all p = ls.all (fun l => l.all p) := by
  induction ls with
  | nil => rfl
  | cons l rest ih => simp [catLists, List.all_append, ih]

theorem string_data_append (s t : String) : (s ++ t).data = s.data ++ t.data := by
  cases s
  cases t
  rfl

theorem string_append_assoc (a b c : String) : a ++ b ++ c = a ++ (b ++ c) := by
  cases a with | mk l1 =>
  cases b with | mk l2 =>
  cases c with | mk l3 =>
  show String.mk (l1 ++ l2 ++ l3) = String.mk (l1 ++ (l2 ++ l3))
  rw [List.append_assoc]

theorem charsLead_self_append (l m : List Char) : charsLead l (l ++ m) = true := by
  induction l with
  | nil => rfl
  | cons c cs ih => simp [charsLead, ih]

/-- A string that begins with `n` contains `n` as a substring. -/
theorem mentions_self_append (n r : String) : mentions n (n ++ r) = true := by
  unfold mentions
  apply List.any_eq_true.mpr
  refine ⟨0, by simp, ?_⟩
  simp [string_data_append, charsLead_self_append]

theorem mentions_name_msg (n a b : String) : mentions n (n ++ a ++ b) = true := by
  rw [string_append_assoc]
  exact mentions_self_append n (a ++ b)

/-- The running-service count is a filtered subcount, host by host. -/
theorem running_le_total (vms : List VmStatus) :
    (vms.map (fun v => (v.services.filter isRunningB).length)).sum ≤
      (vms.map (fun v => v.services.length)).sum := by
  induction vms with
  | nil => simp
  | cons v rest ih =>
    simp only [List.map_cons, List.sum_cons]
    exact Nat.add_le_add (List.length_filter_le _ _) ih

theorem scanLoop_aux (hosts : List (VmHost × HostOutcome)) (a : List VmStatus)
    (b c : List String) :
    hosts.foldl scanStep (a, b, c) =
      (a ++ hosts.map (fun p => (scanHost p.1 p.2).1),
       b ++ catLists (hosts.map (fun p => (scanHost p.1 p.2).2.1)),
       c ++ catLists (hosts.map (fun p => (scanHost p.1 p.2).2.2))) := by
  induction hosts generalizing a b c with
  | nil => simp [catLists]
  | cons p ps ih => simp [List.foldl_cons, scanStep, ih, catLists, List.append_assoc]

/-- Characterization of the host loop: statuses in input order, issue and
warning contributions concatenated in input order. -/
theorem scanLoop_eq (hosts : List (VmHost × HostOutcome)) :
    scanLoop hosts =
      (hosts.map (fun p => (scanHost p.1 p.2).1),
       catLists (hosts.map (fun p => (scanHost p.1 p.2).2.1)),
       catLists (hosts.map (fun p => (scanHost p.1 p.2).2.2))) := by
  simpa using scanLoop_aux hosts [] [] []

theorem scanHost_host (h : VmHost) (o : HostOutcome) : (scanHost h o).1.host = h := by
  cases hc : o.connectError <;> simp [scanHost, hc]

theorem getElem_after {β : Type} (A : List β) (x : β) (B : List β) :
    (A ++ x :: B)[A.length]? = some x := by
  induction A with
  | nil => simp
  | cons a as ih => simpa using ih

/-- Hosts whose contributed issues never mention `name` contribute nothing to
the filtered issue list. -/
theorem crit_filter_nil (name : String) (qs : List (VmHost × HostOutcome))
    (hq : ∀ q ∈ qs, ∀ issue ∈ hostCritical q.1 q.2, mentions name issue = false) :
    (catLists (qs.map (fun p => (scanHost p.1 p.2).2.1))).filter
      (fun issue => mentions name issue) = [] := by
  induction qs with
  | nil => rfl
  | cons q rest ih =>
    simp only [List.map_cons, catLists, List.filter_append]
    rw [List.append_eq_nil]
    constructor
    · rw [List.filter_eq_nil_iff]
      intro issue hissue
      simp [hq q (List.mem_cons_self q rest) issue hissue]
    · exact ih (fun q2 hq2 issue hi => hq q2 (List.mem_cons_of_mem q hq2) issue hi)

/-! ## Claim theorems -/

set_option maxRecDepth 65536

/-- C1: for every assembled report, `summary.total_services` equals the sum
over all hosts of the length of that host's service list,
`summary.failed_services` equals `summary.total_services` minus
`summary.running_services` (stated both as the truncated subtraction the code
performs and, underflow-free, as `failed + running = total`), and
`summary.reachable_vms` is at most `summary.total_vms`. -/
theorem c1_summary_invariants (hosts : List (VmHost × HostOutcome))
    (cfgs : List WebServiceConfig) (elapsed : WebServiceConfig → Nat)
    (response : WebServiceConfig → HttpOutcome) (ts : Nat) :
    (scan hosts cfgs elapsed response ts).summary.total_services =
      ((scan hosts cfgs elapsed response ts).vms.map (fun v => v.services.length)).sum ∧
    (scan hosts cfgs elapsed response ts).summary.failed_services =
      (scan hosts cfgs elapsed response ts).summary.total_services -
        (scan hosts cfgs elapsed response ts).summary.running_services ∧
    (scan hosts cfgs elapsed response ts).summary.failed_services +
        (scan hosts cfgs elapsed response ts).summary.running_services =
      (scan hosts cfgs elapsed response ts).summary.total_services ∧
    (scan hosts cfgs elapsed response ts).summary.reachable_vms ≤
      (scan hosts cfgs elapsed response ts).summary.total_vms := by
  refine ⟨rfl, rfl, ?_, ?_⟩
  · exact Nat.sub_add_cancel (running_le_total _)
  · exact List.length_filter_le _ _

/-- C10: in every summary produced by `generate_summary`, the running-service
count is at most the total-service count, so the `usize` subtraction
computing `failed_services` never underflows and
`failed_services + running_services = total_services` holds exactly. -/
theorem c10_no_underflow (vms : List VmStatus) :
    (generate_summary vms).running_services ≤ (generate_summary vms).total_services ∧
    (generate_summary vms).failed_services + (generate_summary vms).running_services =
      (generate_summary vms).total_services :=
  ⟨running_le_total vms, Nat.sub_add_cancel (running_le_total vms)⟩

/-- C5: `WebScanner::scan_service` never fails — both arms return `Ok` — the
measured response time is populated in every outcome, and a network error
populates the `error` field while leaving `http_status` unset. -/
theorem c5_probe_never_fails (c : WebServiceConfig) (t : Nat) :
    (∀ s, scan_service c t (HttpOutcome.ok s) =
      Except.ok (WebService.mk c.name c.url (some s) (some t) none)) ∧
    (∀ e, scan_service c t (HttpOutcome.err e) =
      Except.ok (WebService.mk c.name c.url none (some t) (some e))) ∧
    (∀ r, exceptIsOk (scan_service c t r) = true) := by
  refine ⟨fun s => rfl, fun e => rfl, fun r => ?_⟩
  cases r <;> rfl

theorem map_host_eq (hosts : List (VmHost × HostOutcome)) :
    (hosts.map (fun p => (scanHost p.1 p.2).1)).map (fun v => v.host) =
      hosts.map (fun p => p.1) := by
  induction hosts with
  | nil => rfl
  | cons q rest ih => simp only [List.map_cons, scanHost_host, ih]

theorem scan_all_names (cfgs : List WebServiceConfig) (elapsed : WebServiceConfig → Nat)
    (response : WebServiceConfig → HttpOutcome) :
    (scan_all cfgs elapsed response).map (fun w => (w.name, w.url)) =
      cfgs.map (fun c => (c.name, c.url)) := by
  unfold scan_all
  rw [foldl_emits (fun r => match r with | Except.ok ws => [ws] | Except.error _ => [])
      _ _ _ (by intro acc x; cases x <;> simp)]
  rw [List.nil_append, List.map_map]
  induction cfgs with
  | nil => rfl
  | cons c cs ih =>
    simp only [List.map_cons, catLists, List.map_append]
    rw [ih]
    cases hg : response c <;> simp [Function.comp, scan_service, hg]

/-- C6: the assembled report's host list has one entry per input host in input
order, and the endpoint-result list preserves the configured endpoint order —
for every assignment of probe outcomes, which models every completion
schedule (`join_all` and the sequential host loop collect by input position,
not completion order). -/
theorem c6_order_preserved (hosts : List (VmHost × HostOutcome))
    (cfgs : List WebServiceConfig) (elapsed : WebServiceConfig → Nat)
    (response : WebServiceConfig → HttpOutcome) (ts : Nat) :
    (scan hosts cfgs elapsed response ts).vms.map (fun v => v.host) =
      hosts.map (fun p => p.1) ∧
    (scan hosts cfgs elapsed response ts).web_services.map (fun w => (w.name, w.url)) =
      cfgs.map (fun c => (c.name, c.url)) := by
  constructor
  · show (scanLoop hosts).1.map (fun v => v.host) = hosts.map (fun p => p.1)
    rw [scanLoop_eq]
    exact map_host_eq hosts
  · exact scan_all_names cfgs elapsed response

/-- C3: evaluation of the tunnel parser on a two-peer `wg show` block in which
every peer carries `endpoint`, `allowed ips`, `latest handshake` and
`transfer` lines. Both peers are returned (the final peer is flushed at end
of input, so the flush rule does not drop it), but every peer field other
than the public key is left at its initial value — `endpoint = none`,
`allowed_ips = ""`, `latest_handshake = none`, `transfer = none` — because
the source trims each line before testing the two-space-indented prefixes
`"  endpoint:"`, `"  allowed ips:"`, `"  latest handshake:"` and
`"  transfer:"`, which therefore never match. The claim's field round-trip
fails on the code; the peer-field branches are dead code. -/
theorem c3_peer_fields_dropped :
    get_wireguard_status wgSampleOutput =
      some (WireGuardStatus.mk "wg0" "IFACEKEY" 51820
        [WireGuardPeer.mk "PEERKEY1" none "" none none,
         WireGuardPeer.mk "PEERKEY2" none "" none none] none) := by
  decide

/-- C7 counterexample: the tunnel parser applied to the garbage input
`"zzz"` — non-empty, not the `WG_ERROR` sentinel, and matching no recognized
line — returns a `some` status with default fields, not the absent/`None`
value the claim requires for every garbage input. -/
theorem c7_garbage_not_none :
    get_wireguard_status "zzz" = some (WireGuardStatus.mk "wg0" "" 0 [] none) ∧
    get_wireguard_status "zzz" ≠ none := by
  decide

/-- C7 (amended): each of the five inventory parsers is a total Lean function
by construction; on empty input and on its error-sentinel string (where one
exists) each list parser returns `[]` and the tunnel parser returns `none`;
on the recognizable-structure-free garbage input `"zzz"` the four list
parsers return `[]`, while the tunnel parser returns a `some` status with
default fields rather than `none`. -/
theorem c7_parsers_total_on_degenerate_input :
    (list_running_services "" = [] ∧ list_running_services "zzz" = []) ∧
    (list_docker_containers "" = [] ∧ list_docker_containers "DOCKER_ERROR" = [] ∧
      list_docker_containers "zzz" = []) ∧
    (list_podman_containers "" = [] ∧ list_podman_containers "PODMAN_ERROR" = [] ∧
      list_podman_containers "zzz" = []) ∧
    (get_wireguard_status "" = none ∧ get_wireguard_status "WG_ERROR" = none ∧
      get_wireguard_status "zzz" = some (WireGuardStatus.mk "wg0" "" 0 [] none)) ∧
    (get_open_ports "" = [] ∧ get_open_ports "zzz" = []) ∧
    (get_recent_errors "" = [] ∧ get_recent_errors "JOURNALCTL_ERROR" = [] ∧
      get_recent_errors "zzz" = []) := by
  decide

theorem perLine_all (raw : String) :
    (perLineServiceRecords raw).all (fun r => isRunningB r && r.ports.isEmpty) = true := by
  unfold perLineServiceRecords
  by_cases hemp : (rustTrim raw).data.isEmpty
  · simp [hemp]
  · rw [if_neg (by simp [hemp]), all_catLists]
    apply List.all_eq_true.mpr
    intro l hl
    rcases List.mem_map.mp hl with ⟨pat, _, rfl⟩
    by_cases hm : mentions pat (lowerStr (rustTrim raw)) <;> simp [hm, isRunningB]

/-- C8: the service parser produces, for each input line, exactly one record
per allow-list fragment the (trimmed, lowercased) line contains, and every
produced record has status `Running` and an empty port set. -/
theorem c8_service_records (output : String) :
    list_running_services output =
      catLists ((rustLines output).map perLineServiceRecords) ∧
    (list_running_services output).all (fun r => isRunningB r && r.ports.isEmpty) = true := by
  have h1 : list_running_services output =
      catLists ((rustLines output).map perLineServiceRecords) := by
    unfold list_running_services
    rw [foldl_emits perLineServiceRecords _ _ [] ?hstep, List.nil_append]
    case hstep =>
      intro acc raw
      dsimp only
      by_cases hemp : (rustTrim raw).data.isEmpty
      · simp [perLineServiceRecords, hemp]
      · rw [if_neg (by simp [hemp])]
        rw [foldl_emits (fun pat =>
            if mentions pat (lowerStr (rustTrim raw)) then
              [Service.mk (rustTrim raw) ServiceStatus.Running []]
            else []) _ _ acc ?hpat]
        · rw [perLineServiceRecords, if_neg (by simp [hemp])]
        case hpat =>
          intro acc2 pat
          by_cases hm : mentions pat (lowerStr (rustTrim raw)) <;> simp [hm]
  refine ⟨h1, ?_⟩
  rw [h1, all_catLists]
  apply List.all_eq_true.mpr
  intro l hl
  rcases List.mem_map.mp hl with ⟨raw, _, rfl⟩
  exact perLine_all raw

/-- C9: on a reachable host with no services, issue derivation yields one
critical issue per recent error exactly when the message contains one of the
three fixed substrings — `"NT_STATUS_ADDRESS_ALREADY_ASSOCIATED"`,
`"Failed to bind"`, `"port.*already"` — under plain substring containment.
In particular `"port.*already"` is matched literally, never as a regular
expression: a message a regex engine would match (`"smbd: port 445 is
already in use"`) produces no issue, while a message containing the literal
text does. -/
theorem c9_bind_error_literal (h : VmHost) (errors : List LogEntry) :
    check_critical_issues h [] errors =
      catLists (errors.map (fun e =>
        if mentions "NT_STATUS_ADDRESS_ALREADY_ASSOCIATED" e.message
            || mentions "Failed to bind" e.message
            || mentions "port.*already" e.message then
          [h.name ++ ": Port binding error - " ++ e.message]
        else [])) ∧
    mentions "port.*already" "smbd: port 445 is already in use" = false ∧
    mentions "port.*already" "nmbd: bind failed with port.*already diagnostic" = true := by
  refine ⟨?_, by decide, by decide⟩
  show portConflictIssues h [] ++ bindErrorIssues h errors = _
  rw [show portConflictIssues h [] = [] from rfl, List.nil_append]
  unfold bindErrorIssues
  rw [foldl_emits (fun e =>
      if mentions "NT_STATUS_ADDRESS_ALREADY_ASSOCIATED" e.message
          || mentions "Failed to bind" e.message
          || mentions "port.*already" e.message then
        [h.name ++ ": Port binding error - " ++ e.message]
      else []) _ _ [] ?hstep, List.nil_append]
  case hstep =>
    intro acc e
    by_cases hm : (mentions "NT_STATUS_ADDRESS_ALREADY_ASSOCIATED" e.message
        || mentions "Failed to bind" e.message
        || mentions "port.*already" e.message) = true
    · simp [hm]
    · simp [Bool.not_eq_true] at hm
      simp [hm]

/-- C4: for three `Running` single-port services on one host where exactly two
declare the same port (`p`, with the third on a distinct port `q`), issue
derivation produces exactly one critical issue, naming the host, the shared
port and both conflicting service names in encounter order; and when the
three declared ports are pairwise distinct, it produces no issue at all. -/
theorem c4_port_conflict_detection (h : VmHost) (n1 n2 n3 : String)
    (p q p1 p2 p3 : Nat) (hpq : p ≠ q)
    (h12 : p1 ≠ p2) (h13 : p1 ≠ p3) (h23 : p2 ≠ p3) :
    check_critical_issues h
      [Service.mk n1 ServiceStatus.Running [p], Service.mk n2 ServiceStatus.Running [p],
       Service.mk n3 ServiceStatus.Running [q]] [] =
      [h.name ++ ": Port conflict on " ++ toString p ++ " - used by " ++
        rustDebugStrList [n1, n2]] ∧
    check_critical_issues h
      [Service.mk n1 ServiceStatus.Running [p1], Service.mk n2 ServiceStatus.Running [p2],
       Service.mk n3 ServiceStatus.Running [p3]] [] = [] := by
  constructor
  · simp [check_critical_issues, portConflictIssues, portUsage, runningPortPairs,
      insertUsage, bindErrorIssues, hpq]
  · simp [check_critical_issues, portConflictIssues, portUsage, runningPortPairs,
      insertUsage, bindErrorIssues, h12, h13, h23]

/-- Witness for C4 at concrete inputs: nginx and apache both on port 80
conflict (one issue naming both), while ports 80/81/3306 yield no issue. -/
theorem c4_port_conflict_witness :
    check_critical_issues (VmHost.mk "web1" "10.0.0.1" 22 "root" "id" none)
      [Service.mk "nginx" ServiceStatus.Running [80],
       Service.mk "apache" ServiceStatus.Running [80],
       Service.mk "mysql" ServiceStatus.Running [3306]] [] =
      ["web1" ++ ": Port conflict on " ++ toString 80 ++ " - used by " ++
        rustDebugStrList ["nginx", "apache"]] ∧
    check_critical_issues (VmHost.mk "web1" "10.0.0.1" 22 "root" "id" none)
      [Service.mk "nginx" ServiceStatus.Running [80],
       Service.mk "apache" ServiceStatus.Running [81],
       Service.mk "mysql" ServiceStatus.Running [3306]] [] = [] :=
  c4_port_conflict_detection (VmHost.mk "web1" "10.0.0.1" 22 "root" "id" none)
    "nginx" "apache" "mysql" 80 3306 80 81 3306
    (by decide) (by decide) (by decide) (by decide)

/-- C2 counterexample: a host whose connection succeeds but whose `hostname`
probe fails is marked unreachable (`reachable = false`) in the report, yet
its service list is non-empty (the service probe succeeded) and the report
contains no critical issue at all — zero issues mention the host's name
"h1". The connected-but-unreachable path records only a warning, so the
claim's "all sub-lists empty and exactly one critical issue" is false for it
at this concrete input. -/
theorem c2_unreachable_counterexample :
    (scan [(VmHost.mk "h1" "10.0.0.1" 22 "root" "id" none,
        HostOutcome.mk none (Except.error "hostname failed")
          (Except.ok "nginx.service loaded active running The nginx server")
          (Except.error "x") (Except.error "x") (Except.error "x")
          (Except.error "x") (Except.error "x") (Except.error "x"))]
      [] (fun _ => 0) (fun _ => HttpOutcome.err "x") 0).vms =
      [VmStatus.mk (VmHost.mk "h1" "10.0.0.1" 22 "root" "id" none) false
        [Service.mk "nginx.service loaded active running The nginx server"
          ServiceStatus.Running []] [] none [] []] ∧
    (scan [(VmHost.mk "h1" "10.0.0.1" 22 "root" "id" none,
        HostOutcome.mk none (Except.error "hostname failed")
          (Except.ok "nginx.service loaded active running The nginx server")
          (Except.error "x") (Except.error "x") (Except.error "x")
          (Except.error "x") (Except.error "x") (Except.error "x"))]
      [] (fun _ => 0) (fun _ => HttpOutcome.err "x") 0).critical_issues = [] ∧
    (scan [(VmHost.mk "h1" "10.0.0.1" 22 "root" "id" none,
        HostOutcome.mk none (Except.error "hostname failed")
          (Except.ok "nginx.service loaded active running The nginx server")
          (Except.error "x") (Except.error "x") (Except.error "x")
          (Except.error "x") (Except.error "x") (Except.error "x"))]
      [] (fun _ => 0) (fun _ => HttpOutcome.err "x") 0).warnings =
      ["h1 is not reachable"] := by
  decide

/-- C2 (amended): for every host whose connection attempt fails, the report
records a `VmStatus` with `reachable = false`, empty service/container/
port/log lists and no tunnel status, at that host's input position, and that
iteration contributes exactly the critical issue `"{host}: {error}"`;
provided no other host's contributed issues mention this host's name, the
report contains exactly one critical issue mentioning it. (Hosts that connect
but fail the reachability probe are also marked unreachable, but keep their
probed sub-lists and contribute a warning instead — see the counterexample.) -/
theorem c2_connect_failure_contract (pre post : List (VmHost × HostOutcome)) (h : VmHost)
    (o : HostOutcome) (cfgs : List WebServiceConfig) (elapsed : WebServiceConfig → Nat)
    (response : WebServiceConfig → HttpOutcome) (ts : Nat) (e : String)
    (hc : o.connectError = some e)
    (hothers : ∀ q ∈ pre ++ post, ∀ issue ∈ hostCritical q.1 q.2,
      mentions h.name issue = false) :
    ((scan (pre ++ (h, o) :: post) cfgs elapsed response ts).vms)[pre.length]? =
      some (VmStatus.mk h false [] [] none [] []) ∧
    (h.name ++ ": " ++ e) ∈
      (scan (pre ++ (h, o) :: post) cfgs elapsed response ts).critical_issues ∧
    ((scan (pre ++ (h, o) :: post) cfgs elapsed response ts).critical_issues.filter
      (fun issue => mentions h.name issue)).length = 1 := by
  have hvm : scanHost h o =
      (VmStatus.mk h false [] [] none [] [], [h.name ++ ": " ++ e], []) := by
    simp [scanHost, hc]
  have hvms : (scan (pre ++ (h, o) :: post) cfgs elapsed response ts).vms =
      pre.map (fun p => (scanHost p.1 p.2).1) ++
        (VmStatus.mk h false [] [] none [] []) ::
          post.map (fun p => (scanHost p.1 p.2).1) := by
    show (scanLoop (pre ++ (h, o) :: post)).1 = _
    rw [scanLoop_eq]
    simp [List.map_append, hvm]
  have hci : (scan (pre ++ (h, o) :: post) cfgs elapsed response ts).critical_issues =
      catLists (pre.map (fun p => (scanHost p.1 p.2).2.1)) ++
        ((h.name ++ ": " ++ e) ::
          catLists (post.map (fun p => (scanHost p.1 p.2).2.1))) := by
    show (scanLoop (pre ++ (h, o) :: post)).2.1 = _
    rw [scanLoop_eq]
    simp [List.map_append, catLists_append, catLists, hvm]
  have hpre : (catLists (pre.map (fun p => (scanHost p.1 p.2).2.1))).filter
      (fun issue => mentions h.name issue) = [] :=
    crit_filter_nil h.name pre (fun q hq issue hi =>
      hothers q (List.mem_append.mpr (Or.inl hq)) issue hi)
  have hpost : (catLists (post.map (fun p => (scanHost p.1 p.2).2.1))).filter
      (fun issue => mentions h.name issue) = [] :=
    crit_filter_nil h.name post (fun q hq issue hi =>
      hothers q (List.mem_append.mpr (Or.inr hq)) issue hi)
  refine ⟨?_, ?_, ?_⟩
  · rw [hvms]
    have hg := getElem_after (pre.map (fun p => (scanHost p.1 p.2).1))
      (VmStatus.mk h false [] [] none [] []) (post.map (fun p => (scanHost p.1 p.2).1))
    rwa [List.length_map] at hg
  · rw [hci]
    exact List.mem_append.mpr (Or.inr (List.mem_cons_self _ _))
  · rw [hci, List.filter_append, hpre, List.nil_append, List.filter_cons]
    simp [mentions_name_msg h.name ": " e, hpost]

/-- Witness for C2 at a concrete input: a single host "h9" whose connection
fails with "boom" is recorded unreachable with empty sub-lists, and the
report's only critical issue is "h9: boom". -/
theorem c2_connect_failure_witness :
    ((scan [(VmHost.mk "h9" "10.0.0.9" 22 "root" "id" none,
        HostOutcome.mk (some "boom") (Except.error "x") (Except.error "x")
          (Except.error "x") (Except.error "x") (Except.error "x")
          (Except.error "x") (Except.error "x") (Except.error "x"))]
      [] (fun _ => 0) (fun _ => HttpOutcome.err "x") 0).vms)[(0 : Nat)]? =
      some (VmStatus.mk (VmHost.mk "h9" "10.0.0.9" 22 "root" "id" none)
        false [] [] none [] []) ∧
    ("h9" ++ ": " ++ "boom") ∈
      (scan [(VmHost.mk "h9" "10.0.0.9" 22 "root" "id" none,
        HostOutcome.mk (some "boom") (Except.error "x") (Except.error "x")
          (Except.error "x") (Except.error "x") (Except.error "x")
          (Except.error "x") (Except.error "x") (Except.error "x"))]
      [] (fun _ => 0) (fun _ => HttpOutcome.err "x") 0).critical_issues ∧
    ((scan [(VmHost.mk "h9" "10.0.0.9" 22 "root" "id" none,
        HostOutcome.mk (some "boom") (Except.error "x") (Except.error "x")
          (Except.error "x") (Except.error "x") (Except.error "x")
          (Except.error "x") (Except.error "x") (Except.error "x"))]
      [] (fun _ => 0) (fun _ => HttpOutcome.err "x") 0).critical_issues.filter
      (fun issue => mentions "h9" issue)).length = 1 :=
  c2_connect_failure_contract [] []
    (VmHost.mk "h9" "10.0.0.9" 22 "root" "id" none)
    (HostOutcome.mk (some "boom") (Except.error "x") (Except.error "x")
      (Except.error "x") (Except.error "x") (Except.error "x")
      (Except.error "x") (Except.error "x") (Except.error "x"))
    [] (fun _ => 0) (fun _ => HttpOutcome.err "x") 0 "boom" rfl
    (fun q hq => absurd hq (List.not_mem_nil q))
